import Mathlib

/-!
Verification of the RocketDoo deployment orchestration subsystem.

This file gives a shallow embedding, in Lean 4, of the deploy subsystem of
the `rocketdoo` repository (`rocketdoo/core/deploy/base.py`,
`module_packager.py`, `vps.py`, `odoo_sh.py`, and
`rocketdoo/core/module_scanner.py`), and proves or refutes the spec's
claims about it.  Filesystem and subprocess effects are made explicit:
directory trees become an inductive tree type, subprocess results become
records, and each orchestration function becomes a pure function of its
inputs together with the observable effects it performs.
-/

namespace Rocketdoo

/-- Embeds `DeploymentResult` of `core/deploy/base.py` (the `details` map,
`timestamp` and log list are elided: no claim observes them). -/
structure DeploymentResult where
  success : Bool
  message : String
deriving DecidableEq, Repr

/-- Embeds the outcomes of the five steps that `BaseDeployer.execute`
invokes on its subclass: `validate_config`, `validate_modules`,
`create_backup`, `pre_deploy_check`, `deploy_modules`,
`post_deploy_actions`. -/
structure StepOutcomes where
  configErrors : List String
  validationErrors : List String
  backupOk : Bool
  preCheckOk : Bool
  deployResult : DeploymentResult
  postResult : DeploymentResult
deriving DecidableEq, Repr

/-- Embeds `BaseDeployer.execute` (`core/deploy/base.py`).  The second
component counts the `rollback()` invocations the run performs.  Branches
follow the source in order: failing `validate_config` / `validate_modules`
/ `create_backup` / `pre_deploy_check` each return a failure result with
no rollback; a failing `deploy_modules` triggers one `rollback()` and
returns the deploy result itself; a failing `post_deploy_actions` is only
logged and the run still returns the final success result. -/
def execute (o : StepOutcomes) (targetName : String) : DeploymentResult × Nat :=
  if o.configErrors ≠ [] then
    (⟨false, "Invalid configuration"⟩, 0)
  else if o.validationErrors ≠ [] then
    (⟨false, "Module validation failed"⟩, 0)
  else if !o.backupOk then
    (⟨false, "Backup failed"⟩, 0)
  else if !o.preCheckOk then
    (⟨false, "Pre-deploy check failed"⟩, 0)
  else if !o.deployResult.success then
    (o.deployResult, 1)
  else
    (⟨true, "Deployment to " ++ targetName ++ " completed"⟩, 0)

/-- Python `str.startswith` (kernel-computable form). -/
def strStartsWith (s pre : String) : Bool :=
  pre.data.isPrefixOf s.data

/-- Python `str.endswith` (kernel-computable form). -/
def strEndsWith (s suffix : String) : Bool :=
  suffix.data.isSuffixOf s.data

/-- Python truthiness of an optional string (`config.get(...)` yields
`None` when absent; `None` and the empty string are falsy). -/
def optTruthy : Option String → Bool
  | none => false
  | some s => !(s == "")

/-- Authentication methods of `VPSDeployer` (`core/deploy/vps.py`). -/
inductive AuthMethod where
  | keyAuth
  | pwAuth
deriving DecidableEq, Repr

/-- The authentication-relevant state a successful `VPSDeployer.__init__`
establishes. -/
structure VpsAuthSetup where
  authMethod : Option AuthMethod
  password : Option String
deriving DecidableEq, Repr

/-- Embeds the authentication part of `VPSDeployer.__init__`
(`core/deploy/vps.py`): raise on both `ssh_key` and `password` set,
determine the auth method by presence, resolve a `${VAR}` password
placeholder from the environment, and prompt interactively when
password auth is selected but no password resolved (raising if the
prompt yields nothing).  `env` is the process environment and
`promptInput` the interactive `getpass` reply.  The second component
counts network operations performed: the constructor spawns no ssh,
rsync or other remote process on any branch, so it is `0` throughout. -/
def vpsInitAuth (sshKey password : Option String) (env : String → Option String)
    (promptInput : String) : Except String VpsAuthSetup × Nat :=
  if optTruthy sshKey && optTruthy password then
    (Except.error "Invalid configuration: both ssh_key and password defined", 0)
  else
    let authMethod : Option AuthMethod :=
      if optTruthy sshKey then some AuthMethod.keyAuth
      else if optTruthy password then some AuthMethod.pwAuth
      else none
    let resolved : Option String :=
      match password with
      | some p =>
        if optTruthy (some p) && strStartsWith p "$\x7b" && strEndsWith p "\x7d" then
          env ((p.drop 2).dropRight 1)
        else some p
      | none => none
    if authMethod == some AuthMethod.pwAuth && !optTruthy resolved then
      if promptInput == "" then
        (Except.error "Password authentication selected but no password provided", 0)
      else
        (Except.ok ⟨authMethod, some promptInput⟩, 0)
    else
      (Except.ok ⟨authMethod, resolved⟩, 0)

/-- One entry of the target configuration's `validations` mapping. -/
abbrev ValidationFlags := List (String × Bool)

/-- Embeds `validations.get(key, True)`: an individual check defaults to
enabled when its key is absent from the mapping. -/
def validationEnabled (validations : ValidationFlags) (key : String) : Bool :=
  match validations.find? (fun kv => kv.1 == key) with
  | some kv => kv.2
  | none => true

/-- The per-module facts the three checks of
`BaseDeployer.validate_modules` observe: whether `__manifest__.py`
exists, and the syntax errors its `.py` / `.xml` files would produce. -/
structure ModuleCheckData where
  name : String
  manifestFilePresent : Bool
  pySyntaxErrors : List String
  xmlErrors : List String
deriving DecidableEq, Repr

/-- The checks `validate_modules` can run on one module. -/
inductive CheckKind where
  | checkManifest
  | checkPythonSyntax
  | checkXmlSyntax
deriving DecidableEq, Repr

/-- Embeds the body of the per-module loop of
`BaseDeployer.validate_modules`: returns the errors it appends and the
checks it actually runs for one module. -/
def validateOneModule (validations : ValidationFlags) (m : ModuleCheckData) :
    List String × List CheckKind :=
  let manifestErrs :=
    if validationEnabled validations "check_manifest" then
      if !m.manifestFilePresent then [m.name ++ ": __manifest__.py not found"] else []
    else []
  let manifestChecks :=
    if validationEnabled validations "check_manifest" then [CheckKind.checkManifest] else []
  let pyErrs :=
    if validationEnabled validations "check_python_syntax" then m.pySyntaxErrors else []
  let pyChecks :=
    if validationEnabled validations "check_python_syntax" then [CheckKind.checkPythonSyntax] else []
  let xmlErrs :=
    if validationEnabled validations "check_xml_syntax" then m.xmlErrors else []
  let xmlChecks :=
    if validationEnabled validations "check_xml_syntax" then [CheckKind.checkXmlSyntax] else []
  (manifestErrs ++ pyErrs ++ xmlErrs, manifestChecks ++ pyChecks ++ xmlChecks)

/-- Embeds `BaseDeployer.validate_modules` (`core/deploy/base.py`):
`validations = self.config.get('validations', {})`; an empty (or absent)
mapping returns the empty error list before the module loop; otherwise
each module is checked.  The second component lists every check run. -/
def validateModules (validations : ValidationFlags) (modules : List ModuleCheckData) :
    List String × List CheckKind :=
  if validations.isEmpty then ([], [])
  else
    modules.foldl
      (fun acc m =>
        let r := validateOneModule validations m
        (acc.1 ++ r.1, acc.2 ++ r.2))
      ([], [])

/-! ### Glob matching (Python `fnmatch.fnmatch`, POSIX case rules)

`module_packager.py` and `module_scanner.py` match names and paths with
`fnmatch.fnmatch`, whose pattern language is `*`, `?` and `[...]`
character sets (with `!` negation and `-` ranges; a `[` with no closing
`]` is a literal).  The matcher below implements that language over
tokenized patterns. -/

/-- One token of a glob pattern. -/
inductive GlobTok where
  | star
  | qmark
  | lit (c : Char)
  | charSet (negated : Bool) (body : List Char)
deriving DecidableEq, Repr

/-- Splits a bracket expression body at its closing `]`, accumulator
first.  Returns the body (reversed accumulator order restored) and the
remaining pattern, or `none` when no closing `]` exists. -/
def splitBracket (acc : List Char) : List Char → Option (List Char × List Char)
  | [] => none
  | c :: rest =>
    if c = ']' then some (acc.reverse, rest)
    else splitBracket (c :: acc) rest

/-- Scans a bracket expression after the optional `!`: a `]` in first
position belongs to the set. -/
def scanCharSet (rest1 : List Char) : Option (List Char × List Char) :=
  if rest1.head? = some ']' then splitBracket [']'] rest1.tail
  else splitBracket [] rest1

/-- Parses the contents of a bracket expression, the characters after a
`[`: an optional leading `!` negates; a `]` in first position is part of
the set. -/
def parseCharSet (chars : List Char) : Option (Bool × List Char × List Char) :=
  (scanCharSet (if chars.head? == some '!' then chars.tail else chars)).map
    (fun br => (chars.head? == some '!', br.1, br.2))

/-- Tokenizes a glob pattern; a `[` with no closing `]` is a literal.
The first argument is the pattern's length, a bound on the recursion that
keeps the function structurally recursive (every step consumes at least
one character, so the bound is never exhausted on a non-empty pattern). -/
def tokenizeGlobAux : Nat → List Char → List GlobTok
  | _, [] => []
  | 0, _ :: _ => []
  | bound + 1, '*' :: rest => GlobTok.star :: tokenizeGlobAux bound rest
  | bound + 1, '?' :: rest => GlobTok.qmark :: tokenizeGlobAux bound rest
  | bound + 1, '[' :: rest =>
    match parseCharSet rest with
    | some (negated, body, rest2) =>
      GlobTok.charSet negated body :: tokenizeGlobAux bound rest2
    | none => GlobTok.lit '[' :: tokenizeGlobAux bound rest
  | bound + 1, c :: rest => GlobTok.lit c :: tokenizeGlobAux bound rest

/-- Tokenizes a glob pattern. -/
def tokenizeGlob (pat : List Char) : List GlobTok :=
  tokenizeGlobAux pat.length pat

/-- Membership of a character in a bracket expression body, with `a-z`
ranges; a trailing or leading `-` is a literal. -/
def charSetMember : List Char → Char → Bool
  | a :: '-' :: b :: rest, c =>
    if a ≤ c && c ≤ b then true else charSetMember rest c
  | a :: rest, c => if a == c then true else charSetMember rest c
  | [], _ => false

/-- Matches a tokenized glob pattern against text, anchored at both ends
(as Python's `fnmatch` is).  A `*` matches when the rest of the pattern
matches some suffix of the text. -/
def globTokMatch : List GlobTok → List Char → Bool
  | [], cs => cs.isEmpty
  | GlobTok.star :: ps, cs =>
    (List.range (cs.length + 1)).any (fun k => globTokMatch ps (cs.drop k))
  | GlobTok.qmark :: ps, cs =>
    match cs with
    | [] => false
    | _ :: cs2 => globTokMatch ps cs2
  | GlobTok.lit p :: ps, cs =>
    match cs with
    | [] => false
    | c :: cs2 => p == c && globTokMatch ps cs2
  | GlobTok.charSet negated body :: ps, cs =>
    match cs with
    | [] => false
    | c :: cs2 => (charSetMember body c != negated) && globTokMatch ps cs2

/-- Embeds `fnmatch.fnmatch(name, pattern)` (POSIX: no case folding). -/
def fnmatch (name pat : String) : Bool :=
  globTokMatch (tokenizeGlob pat.toList) name.toList

/-! ### Module packager (`core/deploy/module_packager.py`) -/

/-- A directory tree: the shape `_copy_module_files` walks. -/
inductive FSTree where
  | file (name : String)
  | dir (name : String) (children : List FSTree)

/-- The name of a tree node. -/
def FSTree.name : FSTree → String
  | .file n => n
  | .dir n _ => n

/-- `path.is_dir()` for a tree node. -/
def FSTree.isDirNode : FSTree → Bool
  | .file _ => false
  | .dir _ _ => true

/-- Strips all trailing `/` characters (Python `str.rstrip('/')`). -/
def rstripSlash (s : String) : String :=
  ⟨(s.data.reverse.dropWhile (fun c => c == '/')).reverse⟩

/-- Embeds `ModulePackager.should_exclude`: the two Odoo marker files are
never excluded; a pattern ending in `/` matches only a directory with
exactly the stripped name; any other pattern is matched against the
node's name with `fnmatch`. -/
def shouldExclude (excludePatterns : List String) (name : String) (isDir : Bool) : Bool :=
  if name == "__manifest__.py" || name == "__init__.py" then false
  else
    excludePatterns.any fun pat =>
      if strEndsWith pat "/" then isDir && name == rstripSlash pat
      else fnmatch name pat

mutual

/-- The staged copy of one kept node: a file is copied as is
(`shutil.copy2`), a directory is recreated and its children copied
recursively by `_copy_module_files`. -/
def copyModuleTree (excludePatterns : List String) : FSTree → FSTree
  | .file n => FSTree.file n
  | .dir n cs => FSTree.dir n (copyModuleList excludePatterns cs)

/-- Embeds `ModulePackager._copy_module_files`: the staged copy of a list
of directory entries, dropping every entry `should_exclude` matches and
recursing into kept directories. -/
def copyModuleList (excludePatterns : List String) : List FSTree → List FSTree
  | [] => []
  | t :: ts =>
    if shouldExclude excludePatterns t.name t.isDirNode then
      copyModuleList excludePatterns ts
    else
      copyModuleTree excludePatterns t :: copyModuleList excludePatterns ts

end

/-- Whether a node with the given name and kind occurs anywhere in a
forest (at any depth, the roots included). -/
def occursInList (name : String) (isDir : Bool) : List FSTree → Bool
  | [] => false
  | FSTree.file n :: ts =>
    (n == name && isDir == false) || occursInList name isDir ts
  | FSTree.dir n cs :: ts =>
    (n == name && isDir == true) || occursInList name isDir cs ||
    occursInList name isDir ts

/-- A file that `should_exclude` keeps is still present after the
filtered copy. -/
theorem copy_keeps_file (pats : List String) (n : String)
    (hn : shouldExclude pats n false = false) :
    ∀ ts : List FSTree, FSTree.file n ∈ ts → FSTree.file n ∈ copyModuleList pats ts := by
  intro ts
  induction ts with
  | nil => intro h; cases h
  | cons t ts ih =>
    intro h
    rcases List.mem_cons.mp h with h1 | h2
    · subst h1
      simp only [copyModuleList, FSTree.name, FSTree.isDirNode, hn]
      simp [copyModuleTree]
    · by_cases he : shouldExclude pats t.name t.isDirNode = true
      · simpa [copyModuleList, he] using ih h2
      · rw [Bool.not_eq_true] at he
        simp only [copyModuleList, he]
        simp only [Bool.false_eq_true, if_false]
        exact List.mem_cons_of_mem _ (ih h2)

/-- No node that `should_exclude` drops occurs anywhere, at any depth,
in the filtered copy. -/
theorem copy_excludes (pats : List String) (name : String) (isDir : Bool)
    (hx : shouldExclude pats name isDir = true) :
    (ts : List FSTree) → occursInList name isDir (copyModuleList pats ts) = false
  | [] => by simp [copyModuleList, occursInList]
  | FSTree.file n :: ts => by
    by_cases he : shouldExclude pats n false = true
    · simp only [copyModuleList, FSTree.name, FSTree.isDirNode, he, if_pos]
      exact copy_excludes pats name isDir hx ts
    · rw [Bool.not_eq_true] at he
      simp only [copyModuleList, FSTree.name, FSTree.isDirNode, he,
        Bool.false_eq_true, if_false, copyModuleTree, occursInList]
      rw [copy_excludes pats name isDir hx ts]
      simp only [Bool.or_false]
      by_cases hn : n = name
      · subst hn
        cases isDir with
        | false => rw [he] at hx; cases hx
        | true => simp
      · simp [hn]
  | FSTree.dir n cs :: ts => by
    by_cases he : shouldExclude pats n true = true
    · simp only [copyModuleList, FSTree.name, FSTree.isDirNode, he, if_pos]
      exact copy_excludes pats name isDir hx ts
    · rw [Bool.not_eq_true] at he
      simp only [copyModuleList, FSTree.name, FSTree.isDirNode, he,
        Bool.false_eq_true, if_false, copyModuleTree, occursInList]
      rw [copy_excludes pats name isDir hx ts, copy_excludes pats name isDir hx cs]
      simp only [Bool.or_false]
      by_cases hn : n = name
      · subst hn
        cases isDir with
        | true => rw [he] at hx; cases hx
        | false => simp
      · simp [hn]
termination_by ts => sizeOf ts

/-! ### Git-push deployer (`core/deploy/odoo_sh.py`) and VPS transfer
(`core/deploy/vps.py`) -/

/-- Result of a subprocess invocation (`subprocess.CompletedProcess`). -/
structure ProcResult where
  returncode : Int
  stdout : String
  stderr : String
deriving DecidableEq, Repr

/-- Python `str.strip()` with no argument (whitespace). -/
def strTrim (s : String) : String :=
  ⟨((s.data.dropWhile Char.isWhitespace).reverse.dropWhile Char.isWhitespace).reverse⟩

/-- The git operations `OdooSHDeployer.deploy_modules` can issue through
`_run_git_command` after the copy phase. -/
inductive GitOp where
  | add (moduleName : String)
  | diffCached
  | commit (message : String)
  | push (remote branch : String)
deriving DecidableEq, Repr

/-- A module directory inside the temporary working copy: whether it
holds the `.rkd_managed` marker, and its other entries. -/
structure DestDir where
  managed : Bool
  children : List FSTree

/-- One module to deploy, as `deploy_modules` sees it: its name, whether
its source path exists, and its source directory entries. -/
structure ModuleSrc where
  name : String
  present : Bool
  children : List FSTree

/-- Looks a directory name up in the working copy's root. -/
def getEntry (k : String) : List (String × DestDir) → Option DestDir
  | [] => none
  | (k2, v) :: rest => if k2 == k then some v else getEntry k rest

/-- Binds (or rebinds) a key in an association list, keeping the
position of an existing binding. -/
def setEntry (k : String) (v : DestDir) : List (String × DestDir) → List (String × DestDir)
  | [] => [(k, v)]
  | (k2, v2) :: rest => if k2 == k then (k, v) :: rest else (k2, v2) :: setEntry k v rest

/-- Embeds one iteration of the module-copy loop of
`OdooSHDeployer.deploy_modules` (`core/deploy/odoo_sh.py`), acting on
the working copy's root (an association of module directory names):
a missing source path is skipped (`continue`); an existing destination
holding `.rkd_managed` is removed and rewritten by
`_copy_module_filtered` (the same `should_exclude` filter as the
packager) plus a fresh marker; an existing destination without the
marker is skipped untouched; a new destination is written with the
marker. -/
def deployCopyStep (pats : List String) (dest : List (String × DestDir))
    (m : ModuleSrc) : List (String × DestDir) :=
  if !m.present then dest
  else
    match getEntry m.name dest with
    | some d =>
      if d.managed then setEntry m.name ⟨true, copyModuleList pats m.children⟩ dest
      else dest
    | none => setEntry m.name ⟨true, copyModuleList pats m.children⟩ dest

/-- The whole module-copy loop of `OdooSHDeployer.deploy_modules`. -/
def deployCopyModules (pats : List String) (dest : List (String × DestDir))
    (modules : List ModuleSrc) : List (String × DestDir) :=
  modules.foldl (deployCopyStep pats) dest

/-- The subprocess outcomes `OdooSHDeployer.deploy_modules` can observe
after the copy phase: whether `_prepare_repository` succeeded, and the
results of `git diff --cached --name-only`, `git commit` and
`git push`. -/
structure OdooShEnv where
  prepareRepoOk : Bool
  diffOut : ProcResult
  commitRes : ProcResult
  pushRes : ProcResult

/-- Embeds the control flow of `OdooSHDeployer.deploy_modules`
(`core/deploy/odoo_sh.py`) around the copy phase: prepare the repository,
stage each module (`git add -A`), read `git diff --cached --name-only`;
an empty staging set returns success without committing or pushing; a
failing commit or push returns that failure; otherwise success.  The
commit message (built in the source from the module names and the
current timestamp) is the `commitMsg` parameter.  The second component
lists the git operations issued; the third is whether the temporary
working copy was removed — the `finally` block removes it on every exit
path, so it is `true` on every branch. -/
def odooShDeployModules (env : OdooShEnv) (gitRemote branch commitMsg : String)
    (moduleNames : List String) : DeploymentResult × List GitOp × Bool :=
  if !env.prepareRepoOk then
    (⟨false, "Failed to prepare repository"⟩, [], true)
  else
    let addOps := moduleNames.map GitOp.add
    let staged := strTrim env.diffOut.stdout
    if staged == "" then
      (⟨true, "No changes detected, nothing to deploy"⟩,
        addOps ++ [GitOp.diffCached], true)
    else if env.commitRes.returncode != 0 then
      (⟨false, "Failed to commit: " ++ env.commitRes.stderr⟩,
        addOps ++ [GitOp.diffCached, GitOp.commit commitMsg], true)
    else if env.pushRes.returncode != 0 then
      (⟨false, "Failed to push: " ++ env.pushRes.stderr⟩,
        addOps ++ [GitOp.diffCached, GitOp.commit commitMsg,
          GitOp.push gitRemote branch], true)
    else
      (⟨true, "Modules deployed to Odoo.sh"⟩,
        addOps ++ [GitOp.diffCached, GitOp.commit commitMsg,
          GitOp.push gitRemote branch], true)

/-- Embeds the upload loop of `VPSDeployer.deploy_modules`
(`core/deploy/vps.py`): each staged module is uploaded in turn; the
first failed upload returns a failure result immediately.  The second
component is whether the staging temp directory was removed: the source
calls `shutil.rmtree(temp_dir)` only after the loop completes, so an
early failure return leaves the directory behind (`false`). -/
def vpsDeployModules (uploadOk : String → Bool) : List String → DeploymentResult × Bool
  | [] => (⟨true, "Modules deployed successfully"⟩, true)
  | n :: rest =>
    if uploadOk n then vpsDeployModules uploadOk rest
    else (⟨false, "Failed to upload module: " ++ n⟩, false)

theorem setEntry_getEntry_self (k : String) (v : DestDir) (l : List (String × DestDir)) :
    getEntry k (setEntry k v l) = some v := by
  induction l with
  | nil => simp [setEntry, getEntry]
  | cons p rest ih =>
    rcases p with ⟨k2, v2⟩
    cases h : k2 == k with
    | true => simp [setEntry, getEntry, h]
    | false => simpa [setEntry, getEntry, h] using ih

theorem setEntry_getEntry_ne (k k2 : String) (v : DestDir) (l : List (String × DestDir))
    (hne : ¬k = k2) : getEntry k2 (setEntry k v l) = getEntry k2 l := by
  have hkk : (k == k2) = false := by simpa using hne
  induction l with
  | nil => simp [setEntry, getEntry, hkk]
  | cons p rest ih =>
    rcases p with ⟨k3, v3⟩
    cases h : k3 == k with
    | true =>
      have hk3 : k3 = k := by simpa using h
      simp [setEntry, getEntry, h, hkk, hk3]
    | false =>
      cases h2 : k3 == k2 with
      | true => simp [setEntry, getEntry, h, h2]
      | false => simpa [setEntry, getEntry, h, h2] using ih

/-- A copy-loop iteration for one module touches no other destination
directory. -/
theorem deployCopyStep_getEntry_ne (pats : List String) (dest : List (String × DestDir))
    (m : ModuleSrc) (k : String) (hne : ¬m.name = k) :
    getEntry k (deployCopyStep pats dest m) = getEntry k dest := by
  unfold deployCopyStep
  cases hp : m.present with
  | false => simp [hp]
  | true =>
    simp only [hp, Bool.not_true, Bool.false_eq_true, if_false]
    cases hd : getEntry m.name dest with
    | none => exact setEntry_getEntry_ne m.name k _ dest hne
    | some d =>
      cases hm : d.managed with
      | true => simp [hm, setEntry_getEntry_ne m.name k _ dest hne]
      | false => simp [hm]

/-- The copy loop leaves every destination directory alone whose name
belongs to no deployed module. -/
theorem deployCopyModules_getEntry_ne (pats : List String) (k : String) :
    ∀ (modules : List ModuleSrc) (dest : List (String × DestDir)),
      (∀ m2 ∈ modules, ¬m2.name = k) →
      getEntry k (deployCopyModules pats dest modules) = getEntry k dest := by
  intro modules
  induction modules with
  | nil => intro dest _; simp [deployCopyModules]
  | cons m rest ih =>
    intro dest hall
    simp only [deployCopyModules, List.foldl_cons]
    rw [show List.foldl (deployCopyStep pats) (deployCopyStep pats dest m) rest =
      deployCopyModules pats (deployCopyStep pats dest m) rest from rfl]
    rw [ih _ (fun m2 hm2 => hall m2 (List.mem_cons_of_mem m hm2))]
    exact deployCopyStep_getEntry_ne pats dest m k (hall m (List.mem_cons_self m rest))

/-! ### Stable sorting (Python `sorted` / `list.sort` are stable)

`module_scanner.py` sorts modules by name ascending;
`base.py` sorts backup snapshots by modification time descending. -/

/-- Inserts `d` before the first element `x` with `le d x`; used from the
right, this preserves the original order of elements that compare
equal. -/
def insertSortedBy {α : Type} (le : α → α → Bool) (d : α) : List α → List α
  | [] => [d]
  | x :: xs => if le d x then d :: x :: xs else x :: insertSortedBy le d xs

/-- Stable insertion sort: `le a b` means `a` may be placed before
`b`. -/
def stableSortBy {α : Type} (le : α → α → Bool) : List α → List α
  | [] => []
  | d :: ds => insertSortedBy le d (stableSortBy le ds)

theorem insertSortedBy_perm {α : Type} (le : α → α → Bool) (d : α) :
    ∀ l : List α, List.Perm (insertSortedBy le d l) (d :: l) := by
  intro l
  induction l with
  | nil => simp [insertSortedBy]
  | cons x xs ih =>
    unfold insertSortedBy
    by_cases h : le d x
    · simp [h]
    · simp only [h, Bool.false_eq_true, if_false]
      exact (ih.cons x).trans (List.Perm.swap d x xs)

theorem stableSortBy_perm {α : Type} (le : α → α → Bool) :
    ∀ l : List α, List.Perm (stableSortBy le l) l := by
  intro l
  induction l with
  | nil => simp [stableSortBy]
  | cons d ds ih =>
    exact (insertSortedBy_perm le d (stableSortBy le ds)).trans (ih.cons d)

/-- Inserting into a list sorted by a total transitive comparison keeps
it sorted. -/
theorem insertSortedBy_pairwise {α : Type} (le : α → α → Bool)
    (htotal : ∀ a b : α, le a b = true ∨ le b a = true)
    (htrans : ∀ a b c : α, le a b = true → le b c = true → le a c = true)
    (d : α) :
    ∀ l : List α, List.Pairwise (fun a b => le a b = true) l →
      List.Pairwise (fun a b => le a b = true) (insertSortedBy le d l) := by
  intro l
  induction l with
  | nil => intro _; simp [insertSortedBy]
  | cons x xs ih =>
    intro hl
    rw [List.pairwise_cons] at hl
    obtain ⟨hx, hxs⟩ := hl
    unfold insertSortedBy
    cases hdx : le d x with
    | true =>
      rw [if_pos rfl]
      rw [List.pairwise_cons]
      refine ⟨?_, List.pairwise_cons.mpr ⟨hx, hxs⟩⟩
      intro y hy
      rcases List.mem_cons.mp hy with h1 | h2
      · rw [h1]; exact hdx
      · exact htrans d x y hdx (hx y h2)
    | false =>
      rw [if_neg (by simp)]
      rw [List.pairwise_cons]
      refine ⟨?_, ih hxs⟩
      intro y hy
      rcases List.mem_cons.mp ((insertSortedBy_perm le d xs).mem_iff.mp hy) with h1 | h2
      · rw [h1]
        rcases htotal d x with h | h
        · rw [hdx] at h; exact Bool.noConfusion h
        · exact h
      · exact hx y h2

/-- A stable insertion sort by a total transitive comparison produces a
sorted list. -/
theorem stableSortBy_pairwise {α : Type} (le : α → α → Bool)
    (htotal : ∀ a b : α, le a b = true ∨ le b a = true)
    (htrans : ∀ a b c : α, le a b = true → le b c = true → le a c = true) :
    ∀ l : List α, List.Pairwise (fun a b => le a b = true) (stableSortBy le l) := by
  intro l
  induction l with
  | nil => simp [stableSortBy]
  | cons d ds ih =>
    exact insertSortedBy_pairwise le htotal htrans d (stableSortBy le ds) ih

/-! ### Module scanner (`core/module_scanner.py`) -/

/-- A literal value in a parsed `__manifest__.py` dictionary (the
manifest fields the claims observe are strings, booleans and string
lists). -/
inductive ManVal where
  | str (s : String)
  | boolean (b : Bool)
  | strList (l : List String)
deriving DecidableEq, Repr

/-- One candidate module directory under the addons root, as the
scanner observes it: its path string (`str(module_path)`, matched
against the exclude patterns), its directory name, whether the manifest
marker `__manifest__.py` exists in it, and the parse of that file
(`none` when `ast` parsing raises). -/
structure ModuleDir where
  pathStr : String
  name : String
  hasManifestFile : Bool
  manifestParse : Option (List (String × ManVal))
deriving DecidableEq, Repr

/-- Embeds `OdooModule._load_manifest`: an unreadable (absent) or
unparseable manifest is caught and downgraded to the empty mapping. -/
def loadManifest (m : ModuleDir) : List (String × ManVal) :=
  if !m.hasManifestFile then []
  else
    match m.manifestParse with
    | some d => d
    | none => []

/-- Embeds `manifest.get(key)`. -/
def manifestGet (man : List (String × ManVal)) (key : String) : Option ManVal :=
  (man.find? (fun kv => kv.1 == key)).map (fun kv => kv.2)

/-- Embeds `OdooModule.is_installable`:
`manifest.get('installable', True)`, read with Python truthiness. -/
def isInstallable (m : ModuleDir) : Bool :=
  match manifestGet (loadManifest m) "installable" with
  | some (ManVal.boolean b) => b
  | some (ManVal.str s) => !(s == "")
  | some (ManVal.strList l) => !l.isEmpty
  | none => true

/-- Embeds `OdooModule.version`: `manifest.get('version', '1.0')`. -/
def moduleVersion (m : ModuleDir) : ManVal :=
  (manifestGet (loadManifest m) "version").getD (ManVal.str "1.0")

/-- Embeds `OdooModule.depends`: `manifest.get('depends', [])`. -/
def moduleDepends (m : ModuleDir) : ManVal :=
  (manifestGet (loadManifest m) "depends").getD (ManVal.strList [])

/-- Embeds `ModuleScanner.should_exclude`: the module path string is
matched with `fnmatch` against each exclude pattern. -/
def scannerShouldExclude (excludePatterns : List String) (pathStr : String) : Bool :=
  excludePatterns.any (fun pat => fnmatch pathStr pat)

/-- The filesystem as `ModuleScanner.scan` observes it: whether the
addons directory exists, and the directories its recursive
`rglob("__manifest__.py")` walk can reach (those with
`hasManifestFile` are the hits). -/
structure ScanFS where
  addonsPresent : Bool
  dirs : List ModuleDir
deriving DecidableEq, Repr

/-- The fresh-scan body of `ModuleScanner.scan`: the directories holding
a manifest marker, minus the excluded ones, sorted by module name. -/
def scanDiscover (excludePatterns : List String) (fs : ScanFS) : List ModuleDir :=
  stableSortBy (fun a b => decide (a.name ≤ b.name))
    ((fs.dirs.filter (fun d => d.hasManifestFile)).filter
      (fun d => !scannerShouldExclude excludePatterns d.pathStr))

/-- Embeds `ModuleScanner.scan` (`core/module_scanner.py`): with a cache
present and no force flag, the cached list is returned; with the addons
directory missing, the empty list is returned and the cache is NOT
updated; otherwise a fresh scan runs and is cached.  Returns the result
and the new cache (`self._modules`). -/
def scan (excludePatterns : List String) (fs : ScanFS)
    (cache : Option (List ModuleDir)) (forceRescan : Bool) :
    List ModuleDir × Option (List ModuleDir) :=
  if cache.isSome && !forceRescan then
    (cache.getD [], cache)
  else if !fs.addonsPresent then
    ([], cache)
  else
    (scanDiscover excludePatterns fs, some (scanDiscover excludePatterns fs))

/-! ### Backup snapshots (`BaseDeployer.create_backup`,
`BaseDeployer._cleanup_old_backups` in `core/deploy/base.py`) -/

/-- A snapshot directory under the backup root: its directory name and
its modification time. -/
structure SnapDir where
  name : String
  mtime : Nat
deriving DecidableEq, Repr

/-- Embeds `BaseDeployer._cleanup_old_backups`: the directories whose
names start with the target name are sorted by modification time
descending; every one beyond the first `keep_last` is deleted
(`shutil.rmtree`, i.e. removed by path name). -/
def cleanupOldBackups (targetName : String) (keepLast : Nat)
    (dirs : List SnapDir) : List SnapDir :=
  let backups := stableSortBy (fun a b => decide (b.mtime ≤ a.mtime))
    (dirs.filter (fun d => strStartsWith d.name targetName))
  let deleted := backups.drop keepLast
  dirs.filter (fun d => !(deleted.any (fun b => b.name == d.name)))

/-- Embeds `BaseDeployer.create_backup` (backup enabled path): a new
snapshot directory `{target}_{timestamp}` is created (with the current
mtime), the modules are copied into it, and then the retention pruning
runs.  With backup disabled nothing changes. -/
def createBackup (enabled : Bool) (targetName timestamp : String)
    (newMtime : Nat) (keepLast : Nat) (dirs : List SnapDir) : List SnapDir :=
  if !enabled then dirs
  else
    cleanupOldBackups targetName keepLast
      (dirs ++ [⟨targetName ++ "_" ++ timestamp, newMtime⟩])

end Rocketdoo

namespace Rocketdoo

/-- Claim C1: in `BaseDeployer.execute`, a `deploy_modules` result with
`success = False` is followed by exactly one `rollback()` invocation and
the failing result is returned unchanged; a failing `post_deploy_actions`
never triggers rollback, and no other step's failure triggers rollback. -/
theorem C1_rollback_only_on_deploy_failure (o : StepOutcomes) (t : String) :
    ((execute o t).2 = 1 ↔
      (o.configErrors = [] ∧ o.validationErrors = [] ∧ o.backupOk = true ∧
       o.preCheckOk = true ∧ o.deployResult.success = false)) ∧
    (o.configErrors = [] → o.validationErrors = [] → o.backupOk = true →
      o.preCheckOk = true → o.deployResult.success = false →
      (execute o t).1 = o.deployResult) ∧
    (o.deployResult.success = true → (execute o t).2 = 0) := by
  unfold execute
  by_cases h1 : o.configErrors = [] <;>
    by_cases h2 : o.validationErrors = [] <;>
      by_cases h3 : o.backupOk <;>
        by_cases h4 : o.preCheckOk <;>
          by_cases h5 : o.deployResult.success <;>
            simp [h1, h2, h3, h4, h5]

/-- Concrete instantiation of C1: with all earlier steps passing and a
failing `deploy_modules` result, `execute` performs exactly one rollback
and returns that result. -/
theorem C1_rollback_only_on_deploy_failure_witness :
    (execute ⟨[], [], true, true, ⟨false, "Deployment error: rsync failed"⟩,
      ⟨true, "Post-deploy actions completed"⟩⟩ "vps_production").2 = 1 ∧
    (execute ⟨[], [], true, true, ⟨false, "Deployment error: rsync failed"⟩,
      ⟨true, "Post-deploy actions completed"⟩⟩ "vps_production").1 =
      ⟨false, "Deployment error: rsync failed"⟩ := by
  refine ⟨?_, ?_⟩
  · exact (C1_rollback_only_on_deploy_failure
      ⟨[], [], true, true, ⟨false, "Deployment error: rsync failed"⟩,
        ⟨true, "Post-deploy actions completed"⟩⟩ "vps_production").1.mpr
      (by simp)
  · exact (C1_rollback_only_on_deploy_failure
      ⟨[], [], true, true, ⟨false, "Deployment error: rsync failed"⟩,
        ⟨true, "Post-deploy actions completed"⟩⟩ "vps_production").2.1
      rfl rfl rfl rfl rfl

/-- Claim C3: staging a module via `ModulePackager` never excludes the
manifest marker `__manifest__.py` or the init marker `__init__.py`
(whatever the exclude patterns are; they are retained by the copy), and
every other file or directory whose name matches a configured exclude
pattern is absent from the staged copy at every directory depth. -/
theorem C3_markers_kept_matches_dropped (pats : List String) (ts : List FSTree)
    (name pat : String) (isDir : Bool)
    (hpat : pat ∈ pats) (hslash : strEndsWith pat "/" = false)
    (hmatch : fnmatch name pat = true)
    (hn1 : ¬name = "__manifest__.py") (hn2 : ¬name = "__init__.py") :
    shouldExclude pats "__manifest__.py" isDir = false ∧
    shouldExclude pats "__init__.py" isDir = false ∧
    (FSTree.file "__manifest__.py" ∈ ts →
      FSTree.file "__manifest__.py" ∈ copyModuleList pats ts) ∧
    (FSTree.file "__init__.py" ∈ ts →
      FSTree.file "__init__.py" ∈ copyModuleList pats ts) ∧
    shouldExclude pats name isDir = true ∧
    occursInList name isDir (copyModuleList pats ts) = false := by
  have hex : shouldExclude pats name isDir = true := by
    unfold shouldExclude
    rw [if_neg (by simp [hn1, hn2])]
    rw [List.any_eq_true]
    exact ⟨pat, hpat, by simp [hslash, hmatch]⟩
  refine ⟨by simp [shouldExclude], by simp [shouldExclude],
    copy_keeps_file pats "__manifest__.py" (by simp [shouldExclude]) ts,
    copy_keeps_file pats "__init__.py" (by simp [shouldExclude]) ts,
    hex, copy_excludes pats name isDir hex ts⟩

/-- Concrete instantiation of C3: with exclude patterns
`["*.pyc", "tests"]` and a module containing both markers plus a nested
`module.pyc`, the staged copy keeps the manifest marker and contains no
`module.pyc` at any depth. -/
theorem C3_markers_kept_matches_dropped_witness :
    shouldExclude ["*.pyc", "tests"] "module.pyc" false = true ∧
    occursInList "module.pyc" false (copyModuleList ["*.pyc", "tests"]
      [FSTree.file "__manifest__.py", FSTree.file "__init__.py",
       FSTree.dir "models" [FSTree.file "module.pyc", FSTree.file "models.py"]]) = false ∧
    FSTree.file "__manifest__.py" ∈ copyModuleList ["*.pyc", "tests"]
      [FSTree.file "__manifest__.py", FSTree.file "__init__.py",
       FSTree.dir "models" [FSTree.file "module.pyc", FSTree.file "models.py"]] :=
  have h := C3_markers_kept_matches_dropped ["*.pyc", "tests"]
    [FSTree.file "__manifest__.py", FSTree.file "__init__.py",
     FSTree.dir "models" [FSTree.file "module.pyc", FSTree.file "models.py"]]
    "module.pyc" "*.pyc" false
    (by simp) (by decide) (by decide) (by decide) (by decide)
  ⟨h.2.2.2.2.1, h.2.2.2.2.2, h.2.2.1 (by simp)⟩

/-- Claim C4: constructing a VPS deployment target whose connection
configuration sets both an SSH key path and a password raises a
configuration error, and no network call has been attempted (the
network-operation count of the constructor is zero). -/
theorem C4_auth_exclusivity (sshKey password : Option String)
    (env : String → Option String) (promptInput : String)
    (hk : optTruthy sshKey = true) (hp : optTruthy password = true) :
    vpsInitAuth sshKey password env promptInput =
      (Except.error "Invalid configuration: both ssh_key and password defined", 0) := by
  unfold vpsInitAuth
  simp [hk, hp]

/-- Concrete instantiation of C4: a connection with both
`ssh_key: ~/.ssh/id_rsa` and `password: hunter2` raises the
configuration error with zero network operations. -/
theorem C4_auth_exclusivity_witness :
    vpsInitAuth (some "~/.ssh/id_rsa") (some "hunter2") (fun _ => none) "" =
      (Except.error "Invalid configuration: both ssh_key and password defined", 0) :=
  C4_auth_exclusivity (some "~/.ssh/id_rsa") (some "hunter2") (fun _ => none) ""
    (by decide) (by decide)

/-- Claim C10: with an absent or empty `validations` mapping,
`BaseDeployer.validate_modules` returns an empty error list for every
module list and runs no check at all, even though each individual check
defaults to enabled (key absent ⇒ enabled) whenever the mapping is
consulted. -/
theorem C10_empty_validations_skip_all (modules : List ModuleCheckData)
    (validations : ValidationFlags) (key : String)
    (hk : validations.find? (fun kv => kv.1 == key) = none) :
    validateModules [] modules = ([], []) ∧
    validationEnabled validations key = true := by
  constructor
  · simp [validateModules]
  · simp [validationEnabled, hk]

/-- Concrete instantiation of C10: the empty mapping skips every check on
a module whose manifest is missing (which `check_manifest` would flag),
and a non-empty mapping not naming `check_manifest` leaves it enabled. -/
theorem C10_empty_validations_skip_all_witness :
    validateModules [] [⟨"my_module", false, ["my_module: Syntax error in models.py"], []⟩] =
      ([], []) ∧
    validationEnabled [("check_xml_syntax", false)] "check_manifest" = true :=
  ⟨(C10_empty_validations_skip_all
      [⟨"my_module", false, ["my_module: Syntax error in models.py"], []⟩]
      [("check_xml_syntax", false)] "check_manifest" (by decide)).1,
   (C10_empty_validations_skip_all
      [⟨"my_module", false, ["my_module: Syntax error in models.py"], []⟩]
      [("check_xml_syntax", false)] "check_manifest" (by decide)).2⟩

/-- Claim C5: in a Git-push deployment in which, after copying modules
into the fresh working copy, `git diff --cached --name-only` reports
nothing staged, `deploy_modules` returns a success result with the
"nothing to deploy" message, and no `git commit` and no `git push` is
issued. -/
theorem C5_nothing_staged_no_commit (env : OdooShEnv) (remote branch msg : String)
    (names : List String)
    (hprep : env.prepareRepoOk = true)
    (hstaged : strTrim env.diffOut.stdout = "") :
    (odooShDeployModules env remote branch msg names).1 =
      ⟨true, "No changes detected, nothing to deploy"⟩ ∧
    (∀ m2, GitOp.commit m2 ∉ (odooShDeployModules env remote branch msg names).2.1) ∧
    (∀ r b, GitOp.push r b ∉ (odooShDeployModules env remote branch msg names).2.1) := by
  unfold odooShDeployModules
  simp [hprep, hstaged]

/-- Concrete instantiation of C5: a run whose staged-diff output is pure
whitespace reports "nothing to deploy" and issues neither commit nor
push. -/
theorem C5_nothing_staged_no_commit_witness :
    (odooShDeployModules ⟨true, ⟨0, "\n", ""⟩, ⟨0, "", ""⟩, ⟨0, "", ""⟩⟩
      "origin" "main" "[RocketDoo] Deploy modules: mod_a" ["mod_a"]).1 =
      ⟨true, "No changes detected, nothing to deploy"⟩ ∧
    GitOp.commit "[RocketDoo] Deploy modules: mod_a" ∉
      (odooShDeployModules ⟨true, ⟨0, "\n", ""⟩, ⟨0, "", ""⟩, ⟨0, "", ""⟩⟩
        "origin" "main" "[RocketDoo] Deploy modules: mod_a" ["mod_a"]).2.1 ∧
    GitOp.push "origin" "main" ∉
      (odooShDeployModules ⟨true, ⟨0, "\n", ""⟩, ⟨0, "", ""⟩, ⟨0, "", ""⟩⟩
        "origin" "main" "[RocketDoo] Deploy modules: mod_a" ["mod_a"]).2.1 :=
  have h := C5_nothing_staged_no_commit ⟨true, ⟨0, "\n", ""⟩, ⟨0, "", ""⟩, ⟨0, "", ""⟩⟩
    "origin" "main" "[RocketDoo] Deploy modules: mod_a" ["mod_a"] rfl (by decide)
  ⟨h.1, h.2.1 "[RocketDoo] Deploy modules: mod_a", h.2.2 "origin" "main"⟩

/-- Claim C6: during a Git-push deploy, a module whose destination
directory exists in the working copy without the `.rkd_managed` marker
is skipped — its directory entry is left exactly as it was — while the
loop continues with the remaining modules; a destination directory that
does hold the marker is replaced by the freshly filtered copy (plus a
new marker). -/
theorem C6_unmanaged_skipped_managed_replaced (pats : List String)
    (dest : List (String × DestDir)) (modules : List ModuleSrc) (m : ModuleSrc)
    (hm : m ∈ modules) (hnodup : (modules.map ModuleSrc.name).Nodup)
    (d : DestDir) (hd : getEntry m.name dest = some d) :
    (d.managed = false → getEntry m.name (deployCopyModules pats dest modules) = some d) ∧
    (d.managed = true → m.present = true →
      getEntry m.name (deployCopyModules pats dest modules) =
        some ⟨true, copyModuleList pats m.children⟩) := by
  induction modules generalizing dest with
  | nil => cases hm
  | cons m0 rest ih =>
    rw [List.map_cons, List.nodup_cons] at hnodup
    obtain ⟨hnotin, hnodup2⟩ := hnodup
    have hrest_ne : ∀ m2 ∈ rest, ¬m2.name = m0.name := by
      intro m2 hm2 heq
      exact hnotin (heq ▸ List.mem_map_of_mem ModuleSrc.name hm2)
    rcases List.mem_cons.mp hm with h0 | htail
    · subst h0
      have hfold : ∀ dest2 : List (String × DestDir),
          getEntry m.name (deployCopyModules pats dest2 rest) = getEntry m.name dest2 :=
        fun dest2 => deployCopyModules_getEntry_ne pats m.name rest dest2 hrest_ne
      constructor
      · intro hun
        have hstep : deployCopyStep pats dest m = dest := by
          unfold deployCopyStep
          cases hp : m.present with
          | false => simp [hp]
          | true => simp [hp, hd, hun]
        simp only [deployCopyModules, List.foldl_cons]
        rw [show List.foldl (deployCopyStep pats) (deployCopyStep pats dest m) rest =
          deployCopyModules pats (deployCopyStep pats dest m) rest from rfl]
        rw [hstep] at *
        rw [hfold dest, hd]
      · intro hman hpres
        have hstep : deployCopyStep pats dest m =
            setEntry m.name ⟨true, copyModuleList pats m.children⟩ dest := by
          unfold deployCopyStep
          simp [hpres, hd, hman]
        simp only [deployCopyModules, List.foldl_cons]
        rw [show List.foldl (deployCopyStep pats) (deployCopyStep pats dest m) rest =
          deployCopyModules pats (deployCopyStep pats dest m) rest from rfl]
        rw [hstep, hfold _, setEntry_getEntry_self]
    · have hne : ¬m0.name = m.name := by
        intro heq
        exact hnotin (heq ▸ List.mem_map_of_mem ModuleSrc.name htail)
      have hd2 : getEntry m.name (deployCopyStep pats dest m0) = some d := by
        rw [deployCopyStep_getEntry_ne pats dest m0 m.name hne]; exact hd
      have := ih (deployCopyStep pats dest m0) htail hnodup2 hd2
      simpa [deployCopyModules, List.foldl_cons] using this

/-- Concrete instantiation of C6: deploying `mod_a` and `mod_b` into a
working copy where `mod_a` exists unmanaged and `mod_b` exists managed:
`mod_a` keeps its old contents, `mod_b` is replaced by the filtered
copy. -/
theorem C6_unmanaged_skipped_managed_replaced_witness :
    getEntry "mod_a" (deployCopyModules []
      [("mod_a", ⟨false, [FSTree.file "legacy.py"]⟩),
       ("mod_b", ⟨true, [FSTree.file "old.py"]⟩)]
      [⟨"mod_a", true, [FSTree.file "new_a.py"]⟩,
       ⟨"mod_b", true, [FSTree.file "new_b.py"]⟩]) =
      some ⟨false, [FSTree.file "legacy.py"]⟩ ∧
    getEntry "mod_b" (deployCopyModules []
      [("mod_a", ⟨false, [FSTree.file "legacy.py"]⟩),
       ("mod_b", ⟨true, [FSTree.file "old.py"]⟩)]
      [⟨"mod_a", true, [FSTree.file "new_a.py"]⟩,
       ⟨"mod_b", true, [FSTree.file "new_b.py"]⟩]) =
      some ⟨true, copyModuleList [] [FSTree.file "new_b.py"]⟩ :=
  have ha := C6_unmanaged_skipped_managed_replaced []
    [("mod_a", ⟨false, [FSTree.file "legacy.py"]⟩),
     ("mod_b", ⟨true, [FSTree.file "old.py"]⟩)]
    [⟨"mod_a", true, [FSTree.file "new_a.py"]⟩,
     ⟨"mod_b", true, [FSTree.file "new_b.py"]⟩]
    ⟨"mod_a", true, [FSTree.file "new_a.py"]⟩
    (by simp) (by simp) ⟨false, [FSTree.file "legacy.py"]⟩ rfl
  have hb := C6_unmanaged_skipped_managed_replaced []
    [("mod_a", ⟨false, [FSTree.file "legacy.py"]⟩),
     ("mod_b", ⟨true, [FSTree.file "old.py"]⟩)]
    [⟨"mod_a", true, [FSTree.file "new_a.py"]⟩,
     ⟨"mod_b", true, [FSTree.file "new_b.py"]⟩]
    ⟨"mod_b", true, [FSTree.file "new_b.py"]⟩
    (by simp) (by simp) ⟨true, [FSTree.file "old.py"]⟩ rfl
  ⟨ha.1 rfl, hb.2 rfl rfl⟩

/-- Claim C9 (refuted on the VPS backend): the Git-push backend removes
its temporary working copy on every exit path (the `finally` block), but
`VPSDeployer.deploy_modules` removes its staging directory only after
the upload loop succeeds — on a failed upload it returns the failure
result with the staging directory still on disk. -/
theorem C9_vps_staging_dir_not_removed_on_failure :
    (vpsDeployModules (fun n => !(n == "my_module")) ["my_module"]).1.success = false ∧
    (vpsDeployModules (fun n => !(n == "my_module")) ["my_module"]).2 = false ∧
    (∀ env remote branch msg names,
      (odooShDeployModules env remote branch msg names).2.2 = true) := by
  refine ⟨by decide, by decide, ?_⟩
  intro env remote branch msg names
  unfold odooShDeployModules
  cases hp : env.prepareRepoOk with
  | false => simp [hp]
  | true =>
    simp only [hp, Bool.not_true, Bool.false_eq_true, if_false]
    by_cases h1 : strTrim env.diffOut.stdout == ""
    · simp [h1]
    · by_cases h2 : env.commitRes.returncode != 0
      · simp [h1, h2]
      · by_cases h3 : env.pushRes.returncode != 0
        · simp [h1, h2, h3]
        · simp [h1, h2, h3]

/-- Retention pruning, abstractly: filtering a list by a name-determined
predicate `P`, sorting the hits by a total transitive comparison `le`,
dropping all but `k`, and deleting the dropped ones by name leaves
exactly `k` hits and every non-hit, and every deleted hit compares
below (by `le`) every surviving hit. -/
theorem prune_keeps_k (P : SnapDir → Bool) (le : SnapDir → SnapDir → Bool)
    (k : Nat) (dirs2 : List SnapDir)
    (hPname : ∀ a b : SnapDir, a.name = b.name → P a = P b)
    (htotal : ∀ a b : SnapDir, le a b = true ∨ le b a = true)
    (htrans : ∀ a b c : SnapDir, le a b = true → le b c = true → le a c = true)
    (hnodup : (dirs2.map SnapDir.name).Nodup)
    (hcount : k ≤ (dirs2.filter P).length) :
    ((dirs2.filter (fun d =>
        !(((stableSortBy le (dirs2.filter P)).drop k).any (fun b => b.name == d.name)))).filter
      P).length = k ∧
    (∀ d ∈ dirs2, P d = false →
      d ∈ dirs2.filter (fun d2 =>
        !(((stableSortBy le (dirs2.filter P)).drop k).any (fun b => b.name == d2.name)))) ∧
    (∀ d ∈ dirs2, P d = true →
      d ∉ dirs2.filter (fun d2 =>
        !(((stableSortBy le (dirs2.filter P)).drop k).any (fun b => b.name == d2.name))) →
      ∀ s ∈ dirs2.filter (fun d2 =>
        !(((stableSortBy le (dirs2.filter P)).drop k).any (fun b => b.name == d2.name))),
        P s = true → le s d = true) := by
  have hperm : List.Perm (stableSortBy le (dirs2.filter P)) (dirs2.filter P) :=
    stableSortBy_perm le (dirs2.filter P)
  have hpair : List.Pairwise (fun a b => le a b = true)
      (stableSortBy le (dirs2.filter P)) :=
    stableSortBy_pairwise le htotal htrans (dirs2.filter P)
  generalize hS : stableSortBy le (dirs2.filter P) = S at hperm hpair ⊢
  have hBnodup : ((dirs2.filter P).map SnapDir.name).Nodup :=
    List.Nodup.sublist (List.Sublist.map SnapDir.name (List.filter_sublist dirs2)) hnodup
  have hSnodup : (S.map SnapDir.name).Nodup :=
    ((hperm.map SnapDir.name).nodup_iff).mpr hBnodup
  have hSmemP : ∀ b ∈ S, P b = true := by
    intro b hb
    exact (List.mem_filter.mp (hperm.mem_iff.mp hb)).2
  have hSlen : S.length = (dirs2.filter P).length := hperm.length_eq
  have hsplitnd : ((S.take k).map SnapDir.name ++ (S.drop k).map SnapDir.name).Nodup := by
    rw [← List.map_append, List.take_append_drop k S]; exact hSnodup
  have hcross : ∀ x ∈ S.take k, ∀ y ∈ S.drop k, le x y = true := by
    have hp2 : List.Pairwise (fun a b => le a b = true) (S.take k ++ S.drop k) := by
      rw [List.take_append_drop k S]; exact hpair
    exact (List.pairwise_append.mp hp2).2.2
  have hSsub : ∀ b ∈ S, b ∈ dirs2 := by
    intro b hb
    exact List.mem_of_mem_filter (hperm.mem_iff.mp hb)
  generalize hD : S.drop k = D at hsplitnd hSmemP hcross ⊢
  have hdropP : ∀ b ∈ D, P b = true := by
    intro b hb
    have hb2 : b ∈ List.drop k S := by rw [hD]; exact hb
    exact hSmemP b (List.drop_subset k S hb2)
  have hDsub : ∀ b ∈ D, b ∈ S := by
    intro b hb
    have hb2 : b ∈ List.drop k S := by rw [hD]; exact hb
    exact List.drop_subset k S hb2
  have hany_drop : ∀ b ∈ D, (D.any (fun b2 => b2.name == b.name)) = true := by
    intro b hb
    exact List.any_eq_true.mpr ⟨b, hb, by simp⟩
  have hdisj : ∀ d ∈ S.take k, ∀ b ∈ D, ¬b.name = d.name := by
    intro d hd b hb heq
    exact (List.nodup_append.mp hsplitnd).2.2
      (List.mem_map_of_mem SnapDir.name hd)
      (heq ▸ List.mem_map_of_mem SnapDir.name hb)
  have hnotdel_take : ∀ d ∈ S.take k,
      (!(D.any (fun b2 => b2.name == d.name))) = true := by
    intro d hd
    rw [Bool.not_eq_true']
    rw [List.any_eq_false]
    intro b hb
    simp only [beq_iff_eq]
    exact hdisj d hd b hb
  refine ⟨?_, ?_, ?_⟩
  · rw [List.filter_filter]
    rw [List.filter_congr (fun a _ => Bool.and_comm (P a)
      (!(D.any (fun b => b.name == a.name))))]
    rw [← List.filter_filter]
    rw [((hperm.filter (fun a => !(D.any (fun b => b.name == a.name)))).length_eq).symm]
    conv_lhs => rw [← List.take_append_drop k S]
    rw [List.filter_append, hD]
    rw [List.filter_eq_self.mpr hnotdel_take]
    rw [List.filter_eq_nil_iff.mpr (by
      intro b hb hcon
      rw [Bool.not_eq_true'] at hcon
      rw [hany_drop b hb] at hcon
      exact Bool.noConfusion hcon)]
    rw [List.append_nil, List.length_take]
    omega
  · intro d hd hPd
    refine List.mem_filter.mpr ⟨hd, ?_⟩
    rw [Bool.not_eq_true']
    rw [List.any_eq_false]
    intro b hb
    simp only [beq_iff_eq]
    intro heq
    have hPb := hdropP b hb
    rw [hPname b d heq] at hPb
    rw [hPd] at hPb
    exact Bool.false_ne_true hPb
  · intro d hd hPd hdnot s hs hPs
    have hnd : (D.any (fun b => b.name == d.name)) = true := by
      cases hany : (D.any (fun b => b.name == d.name)) with
      | true => rfl
      | false => exact absurd (List.mem_filter.mpr ⟨hd, by rw [hany]; rfl⟩) hdnot
    obtain ⟨b, hbD, hbeq⟩ := List.any_eq_true.mp hnd
    have hbname : b.name = d.name := by simpa using hbeq
    have hbd : b = d :=
      List.inj_on_of_nodup_map hnodup (hSsub b (hDsub b hbD)) hd hbname
    have hdD : d ∈ D := hbd ▸ hbD
    have hsmem := List.mem_filter.mp hs
    have hsS : s ∈ S := hperm.mem_iff.mpr (List.mem_filter.mpr ⟨hsmem.1, hPs⟩)
    have hsplit : s ∈ S.take k ++ S.drop k := by
      rw [List.take_append_drop k S]; exact hsS
    rcases List.mem_append.mp hsplit with hstake | hsdrop
    · exact hcross s hstake d hdD
    · have hsD : s ∈ D := by rw [← hD]; exact hsdrop
      have hanys := hany_drop s hsD
      have h2 := hsmem.2
      rw [hanys] at h2
      exact Bool.noConfusion h2

/-- Counterexample to claim C2 as stated: `_cleanup_old_backups` selects
"this target's snapshots" by `name.startswith(target_name)`, so with
target `a` (retention K = 1, N = 2 pre-existing snapshots `a_1`, `a_2`),
the snapshot `a_b_1` belonging to the *other* target `a_b` also matches
the prefix and is deleted by target `a`'s pruning — another target's
snapshot is not left untouched. -/
theorem C2_other_target_snapshot_deleted :
    SnapDir.mk ("a_b" ++ "_" ++ "1") 5 ∉
      createBackup true "a" "3" 20 1 [⟨"a_1", 10⟩, ⟨"a_2", 11⟩, ⟨"a_b_1", 5⟩] := by
  decide

/-- Claim C2 (amended): with backup enabled and retention count K, after
`create_backup` exactly K snapshot directories whose names start with
the target name remain, the pruned prefix-named snapshots are the oldest
by modification time (every deleted one is no newer than every
survivor), every snapshot whose name does **not** start with the target
name is untouched, and no other directory appears.  (As stated the
claim is false: a snapshot of a *different* target whose name happens to
start with this target's name is treated as this target's — see the
counterexample.) -/
theorem C2_backup_retention_scoped (targetName timestamp : String)
    (newMtime keepLast : Nat) (dirs : List SnapDir)
    (hnodup : ((dirs ++ [SnapDir.mk (targetName ++ "_" ++ timestamp) newMtime]).map
      SnapDir.name).Nodup)
    (hcount : keepLast ≤
      ((dirs ++ [SnapDir.mk (targetName ++ "_" ++ timestamp) newMtime]).filter
        (fun d : SnapDir => strStartsWith d.name targetName)).length) :
    ((createBackup true targetName timestamp newMtime keepLast dirs).filter
        (fun d : SnapDir => strStartsWith d.name targetName)).length = keepLast ∧
    (∀ d ∈ dirs, strStartsWith d.name targetName = false →
      d ∈ createBackup true targetName timestamp newMtime keepLast dirs) ∧
    (∀ d ∈ createBackup true targetName timestamp newMtime keepLast dirs,
      d ∈ dirs ++ [SnapDir.mk (targetName ++ "_" ++ timestamp) newMtime]) ∧
    (∀ d ∈ dirs ++ [SnapDir.mk (targetName ++ "_" ++ timestamp) newMtime],
      strStartsWith d.name targetName = true →
      d ∉ createBackup true targetName timestamp newMtime keepLast dirs →
      ∀ s ∈ createBackup true targetName timestamp newMtime keepLast dirs,
        strStartsWith s.name targetName = true → d.mtime ≤ s.mtime) := by
  have hcb : createBackup true targetName timestamp newMtime keepLast dirs =
      (dirs ++ [SnapDir.mk (targetName ++ "_" ++ timestamp) newMtime]).filter (fun d =>
        !(((stableSortBy (fun a b : SnapDir => decide (b.mtime ≤ a.mtime))
          ((dirs ++ [SnapDir.mk (targetName ++ "_" ++ timestamp) newMtime]).filter
            (fun d2 : SnapDir => strStartsWith d2.name targetName))).drop keepLast).any
          (fun b => b.name == d.name))) := by
    simp only [createBackup, cleanupOldBackups, Bool.not_true, Bool.false_eq_true, if_false]
  rw [hcb]
  have h := prune_keeps_k (fun d : SnapDir => strStartsWith d.name targetName)
    (fun a b : SnapDir => decide (b.mtime ≤ a.mtime)) keepLast
    (dirs ++ [SnapDir.mk (targetName ++ "_" ++ timestamp) newMtime])
    (fun a b hab => by simp only []; rw [hab])
    (fun a b => by
      rcases Nat.le_total b.mtime a.mtime with hab | hab
      · exact Or.inl (by simpa using hab)
      · exact Or.inr (by simpa using hab))
    (fun a b c h1 h2 => by
      simp only [decide_eq_true_iff] at h1 h2 ⊢
      exact Nat.le_trans h2 h1)
    hnodup hcount
  refine ⟨h.1, fun d hd hPd => h.2.1 d (List.mem_append_left _ hd) hPd,
    fun d hd => List.mem_of_mem_filter hd, ?_⟩
  intro d hd hPd hdnot s hs hPs
  have hle := h.2.2 d hd hPd hdnot s hs hPs
  simpa using hle

/-- Concrete instantiation of amended C2: target `a`, retention 1, two
old `a` snapshots and one `b` snapshot — exactly one `a`-prefixed
snapshot remains, the `b` snapshot is untouched, and the pruned `a_1`
(mtime 10) is older than the surviving `a_3` (mtime 20). -/
theorem C2_backup_retention_scoped_witness :
    ((createBackup true "a" "3" 20 1
        [⟨"a_1", 10⟩, ⟨"a_2", 11⟩, ⟨"b_1", 7⟩]).filter
      (fun d : SnapDir => strStartsWith d.name "a")).length = 1 ∧
    SnapDir.mk "b_1" 7 ∈ createBackup true "a" "3" 20 1
      [⟨"a_1", 10⟩, ⟨"a_2", 11⟩, ⟨"b_1", 7⟩] ∧
    (10 : Nat) ≤ 20 :=
  have h := C2_backup_retention_scoped "a" "3" 20 1
    [⟨"a_1", 10⟩, ⟨"a_2", 11⟩, ⟨"b_1", 7⟩] (by decide) (by decide)
  ⟨h.1, h.2.1 ⟨"b_1", 7⟩ (by decide) (by decide),
    h.2.2.2 ⟨"a_1", 10⟩ (by decide) (by decide) (by decide)
      ⟨"a" ++ "_" ++ "3", 20⟩ (by decide) (by decide)⟩

/-- Counterexample to claim C7 as stated: when the addons directory does
not exist, `scan()` returns `[]` *without* writing the cache, so a
second `scan()` without the force flag after the directory appears does
not return the first call's list. -/
theorem C7_second_scan_differs_when_addons_was_missing :
    (scan [] ⟨false, []⟩ none false).1 = [] ∧
    (scan [] ⟨true, [⟨"addons/mod_a", "mod_a", true, some []⟩]⟩
      ((scan [] ⟨false, []⟩ none false).2) false).1 ≠ [] := by
  decide

/-- Claim C7 (amended): provided the first `scan()` found the addons
directory (so its result was cached), a second `scan()` without the
force flag returns the identical list even if the filesystem changed,
and `scan(force_rescan=True)` recomputes the module list from the
current filesystem.  (As stated the claim is false when the addons
directory is missing at the first call — see the counterexample.) -/
theorem C7_scan_cached_and_force_rescan (pats : List String) (fs fs2 : ScanFS)
    (hp : fs.addonsPresent = true) (hp2 : fs2.addonsPresent = true) :
    (scan pats fs2 (scan pats fs none false).2 false).1 = (scan pats fs none false).1 ∧
    (scan pats fs2 (scan pats fs none false).2 true).1 = scanDiscover pats fs2 := by
  unfold scan
  simp [hp, hp2]

/-- Concrete instantiation of amended C7: after a first scan over a tree
holding `mod_a`, a cached second scan over a *changed* tree still
returns `[mod_a]`, and a forced rescan returns the changed tree's
modules. -/
theorem C7_scan_cached_and_force_rescan_witness :
    (scan [] ⟨true, [⟨"addons/mod_b", "mod_b", true, some []⟩]⟩
      ((scan [] ⟨true, [⟨"addons/mod_a", "mod_a", true, some []⟩]⟩ none false).2) false).1 =
      (scan [] ⟨true, [⟨"addons/mod_a", "mod_a", true, some []⟩]⟩ none false).1 ∧
    (scan [] ⟨true, [⟨"addons/mod_b", "mod_b", true, some []⟩]⟩
      ((scan [] ⟨true, [⟨"addons/mod_a", "mod_a", true, some []⟩]⟩ none false).2) true).1 =
      scanDiscover [] ⟨true, [⟨"addons/mod_b", "mod_b", true, some []⟩]⟩ :=
  C7_scan_cached_and_force_rescan [] ⟨true, [⟨"addons/mod_a", "mod_a", true, some []⟩]⟩
    ⟨true, [⟨"addons/mod_b", "mod_b", true, some []⟩]⟩ rfl rfl

/-- Counterexample to claim C8 as stated: a module directory whose
manifest marker file is **absent** is never discovered by `scan()` at
all (the scanner finds modules precisely by `rglob("__manifest__.py")`),
so it is not "included in scan results". -/
theorem C8_absent_manifest_not_discovered :
    (scan [] ⟨true, [⟨"addons/c_mod", "c_mod", false, none⟩]⟩ none false).1 = [] := by
  decide

/-- Claim C8 (amended): a module whose manifest marker file is present
but fails to parse is still included in scan results (not dropped) with
an empty metadata map, and its derived metadata takes the documented
defaults: version `"1.0"`, empty dependency list, installable true.
(The claim's "absent" case is false: such a directory is never
discovered at all — see the counterexample.) -/
theorem C8_parse_failure_included_with_defaults (pats : List String)
    (fs : ScanFS) (m : ModuleDir)
    (hp : fs.addonsPresent = true)
    (hmem : m ∈ fs.dirs) (hman : m.hasManifestFile = true)
    (hparse : m.manifestParse = none)
    (hexc : scannerShouldExclude pats m.pathStr = false) :
    m ∈ (scan pats fs none false).1 ∧
    loadManifest m = [] ∧
    isInstallable m = true ∧
    moduleVersion m = ManVal.str "1.0" ∧
    moduleDepends m = ManVal.strList [] := by
  have hload : loadManifest m = [] := by
    simp [loadManifest, hman, hparse]
  refine ⟨?_, hload, ?_, ?_, ?_⟩
  · unfold scan
    simp only [Option.isSome_none, Bool.false_and, Bool.false_eq_true, if_false, hp,
      Bool.not_true, if_false]
    unfold scanDiscover
    refine (stableSortBy_perm _ _).mem_iff.mpr ?_
    rw [List.mem_filter]
    refine ⟨List.mem_filter.mpr ⟨hmem, by simp [hman]⟩, by simp [hexc]⟩
  · simp [isInstallable, hload, manifestGet]
  · simp [moduleVersion, hload, manifestGet]
  · simp [moduleDepends, hload, manifestGet]

/-- Concrete instantiation of amended C8: a module with an unparseable
manifest appears in the scan result with all-default metadata. -/
theorem C8_parse_failure_included_with_defaults_witness :
    ModuleDir.mk "addons/bad_mod" "bad_mod" true none ∈
      (scan [] ⟨true, [⟨"addons/bad_mod", "bad_mod", true, none⟩]⟩ none false).1 ∧
    isInstallable ⟨"addons/bad_mod", "bad_mod", true, none⟩ = true ∧
    moduleVersion ⟨"addons/bad_mod", "bad_mod", true, none⟩ = ManVal.str "1.0" ∧
    moduleDepends ⟨"addons/bad_mod", "bad_mod", true, none⟩ = ManVal.strList [] :=
  have h := C8_parse_failure_included_with_defaults []
    ⟨true, [⟨"addons/bad_mod", "bad_mod", true, none⟩]⟩
    ⟨"addons/bad_mod", "bad_mod", true, none⟩
    rfl (by decide) rfl rfl (by decide)
  ⟨h.1, h.2.2.1, h.2.2.2.1, h.2.2.2.2⟩

end Rocketdoo
